import Mathlib

/-!
# aliyun-exporter: the metric client (`pkg/client/metric.go`)

A shallow embedding of the datapoint model, the namespace catalog and
`MetricClient.Collect`, followed by the properties proved about them.

Conventions of the embedding

* A Go `map[string]T` is a list of key/value pairs with pairwise distinct keys;
  the order of the list is the order in which a `range` over the map visits it.
* A run-time panic is an explicit result (`Except Panic`, `Run.panic`).
* The channel `ch` is the list of values sent on it, oldest first.
* Calls into the cloud SDK, `encoding/json` and `fmt` are parameters
  (`CmsClient`, `GoLib`); logger calls only write to the logger and are left out.
-/

namespace AliyunExporter

/-! ## Values held by a datapoint -/

/-- Go `float64`. The client never computes with these numbers: it produces the
constant `0` and otherwise hands on what it was given, so the finite values a JSON
number decodes to are carried as rationals. -/
abbrev Float64 := Rat

/-- Go `error`, carried as its message. -/
abbrev Error := String

/-- The dynamic values `json.Unmarshal` stores in a `map[string]interface{}`:
`float64`, `string`, `bool`, the nil interface (JSON `null`), `[]interface{}` and
`map[string]interface{}`. -/
inductive Value where
  | num (x : Float64)
  | str (s : String)
  | bool (b : Bool)
  | null
  | arr (xs : List Value)
  | obj (kvs : List (String × Value))

/-- The panic raised by a failed single-value type assertion `v.(T)`. -/
inductive Panic where
  | interfaceConversion
  deriving DecidableEq, Repr

/-- The assertion `v.(float64)`. -/
def Value.assertFloat64 : Value → Except Panic Float64
  | .num x => .ok x
  | _ => .error .interfaceConversion

/-- The assertion `v.(string)`. -/
def Value.assertString : Value → Except Panic String
  | .str s => .ok s
  | _ => .error .interfaceConversion

/-- The type `Datapoint map[string]interface{}`. -/
structure Datapoint where
  entries : List (String × Value)
  nodupKeys : (entries.map Prod.fst).Nodup

/-- The key set of a datapoint, in iteration order. -/
def Datapoint.keys (d : Datapoint) : List String :=
  d.entries.map Prod.fst

/-- The two-value index expression `v, ok := d[k]`. -/
def Datapoint.lookup (d : Datapoint) (k : String) : Option Value :=
  d.entries.lookup k

/-- The one-value index expression `d[k]`: the nil interface when `k` is absent. -/
def Datapoint.index (d : Datapoint) (k : String) : Value :=
  (d.lookup k).getD .null

/-- The key set of the map `ignores`. -/
def ignores : List String :=
  ["timestamp", "Maximum", "Minimum", "Average"]

/-- The catalog `allNamespaces`, in source order. -/
def allNamespaces : List (String × String) :=
  [ ("acs_ecs_dashboard", "Elastic Compute Service (ECS)"),
    ("acs_containerservice_dashboard", "Container Service for Swarm"),
    ("acs_kubernetes", "Container Service for Kubernetes (ACK)"),
    ("acs_oss_dashboard", "Object Storage Service (OSS)"),
    ("acs_slb_dashboard", "Server Load Balancer (SLB)"),
    ("acs_vpc_eip", "Elastic IP addresses (EIPs)"),
    ("acs_nat_gateway", "NAT Gateway"),
    ("acs_anycast_eip", "Anycast Elastic IP address (EIP)"),
    ("acs_rds_dashboard", "ApsaraDB RDS"),
    ("acs_mongodb", "ApsaraDB for MongoDB"),
    ("acs_memcache", "ApsaraDB for Memcache"),
    ("acs_kvstore", "ApsaraDB for Redis"),
    ("acs_hitsdb", "Time Series Database (TSDB)"),
    ("acs_clickhouse", "ClickHouse"),
    ("acs_cds", "ApsaraDB for Cassandra"),
    ("waf", "Web Application Firewall (WAF)"),
    ("acs_elasticsearch", "Elasticsearch"),
    ("acs_mns_new", "queues of Message Service (MNS)"),
    ("acs_kafka", "Message Queue for Apache Kafka"),
    ("acs_amqp", "Alibaba Cloud Message Queue for AMQP instances") ]

/-- The key set of `allNamespaces`. -/
def namespaceKeys : List String :=
  allNamespaces.map Prod.fst

/-- One order in which `for name := range allNamespaces` visits the keys. Go leaves
the iteration order of a map unspecified, so each call receives some arrangement of
the key set. -/
structure NamespaceRange where
  names : List String
  perm : names.Perm namespaceKeys

/-- The function `allNamesOfNamespaces`: appends every visited key to `ss`. -/
def allNamesOfNamespaces (it : NamespaceRange) : List String :=
  it.names.foldl (fun ss name => ss ++ [name]) []

/-! ## Library functions taken as parameters -/

/-- The two standard-library calls whose result depends on text the model does not
interpret. -/
structure GoLib where
  /-- The call `json.Unmarshal([]byte(s), &datapoints)`: the decoded slice, or the
  decoding error. -/
  jsonUnmarshal : String → Except Error (List Datapoint)
  /-- The call `fmt.Sprintf("%s", v)` for an operand that is not a string (its
  text is a `%!s(...)` rendering that involves float formatting). -/
  sprintfNonString : Value → String

/-- The call `fmt.Sprintf("%s", v)`: a string operand is printed as it is. -/
def GoLib.sprintfS (lib : GoLib) : Value → String
  | .str s => s
  | v => lib.sprintfNonString v

/-! ## The datapoint methods -/

/-- The method `Datapoint.Get`. -/
def Datapoint.Get (d : Datapoint) (measure : String) : Except Panic Float64 :=
  match d.lookup measure with
  | none => .ok 0
  | some v => v.assertFloat64

/-- The method `Datapoint.Labels`: collects the keys not in `ignores`, then
`sort.Strings`. Go orders strings bytewise, which on UTF-8 text is the order of the
code points. The order is total, so the ascending arrangement of the collected keys
is unique and any sorting algorithm returns it; insertion sort stands for the
library routine. -/
def Datapoint.Labels (d : Datapoint) : List String :=
  List.insertionSort (· ≤ ·)
    (d.entries.foldl
      (fun labels kv => if ignores.contains kv.1 then labels else labels ++ [kv.1]) [])

/-- The method `Datapoint.Values`. -/
def Datapoint.Values (lib : GoLib) (d : Datapoint) (labels : List String) : List String :=
  labels.foldl (fun values l => values ++ [lib.sprintfS (d.index l)]) []

/-! ## Configuration -/

namespace config

/-- Modelled from the spec: an element of `Metric.Spec.Claim` (the type is declared
outside the given sources): instance identifiers with an owning application and
team. The field names are the ones `Collect` reads. -/
structure Claim where
  Instance : List String
  App : String
  Team : String

/-- Modelled from the spec: the field `Metric.Spec` (declared outside the given
sources): the list of instance claims. -/
structure Spec where
  Claim : List Claim

/-- Modelled from the spec: `config.Metric` (declared outside the given sources):
name, period, measure, ordered dimension names and the claims. The field names are
the ones `Collect` reads. -/
structure Metric where
  Name : String
  Period : String
  Measure : String
  Dimensions : List String
  Spec : Spec

end config

/-! ## The cloud monitoring client -/

/-- The request built by `cms.CreateDescribeMetricLastRequest` and filled in by
`retrive`; the read timeout is in seconds. -/
structure DescribeMetricLastRequest where
  ReadTimeout : Nat
  Namespace : String
  MetricName : String
  Period : String
  deriving DecidableEq, Repr

/-- The part of the response `retrive` decodes. -/
structure DescribeMetricLastResponse where
  Datapoints : String

/-- The request built by `cms.CreateDescribeMetricMetaListRequest`. -/
structure DescribeMetricMetaListRequest where
  Namespace : String
  PageSize : Nat
  deriving DecidableEq, Repr

/-- A `cms.Resource`, handed on unread; carried by its metric name. -/
structure Resource where
  MetricName : String
  deriving DecidableEq, Repr

/-- The part of the response `DescribeMetricMetaList` reads
(`resp.Resources.Resource`). -/
structure DescribeMetricMetaListResponse where
  Resource : List Resource

/-- The two calls of `cms.Client` the metric client makes, each answering a request
with a response or an error. -/
structure CmsClient where
  DescribeMetricLast : DescribeMetricLastRequest → Except Error DescribeMetricLastResponse
  DescribeMetricMetaList :
    DescribeMetricMetaListRequest → Except Error DescribeMetricMetaListResponse

/-- The type `MetricClient` (without its logger). -/
structure MetricClient where
  cloudID : String
  cms : CmsClient

/-- The value sent on `ch`, recorded by the arguments of the expression that builds
it: `m.Desc(namespace, sub, labels...)`, the gauge value and the label values.
`config.Metric.Desc` and `prometheus.MustNewConstMetric` lie outside the given
sources. -/
structure Sample where
  ns : String
  sub : String
  labels : List String
  value : Float64
  labelValues : List String
  deriving DecidableEq, Repr

/-- What a piece of code did to `ch`: it ran to its end, or it panicked, in both
cases after sending `sent`. -/
inductive Run where
  | done (sent : List Sample)
  | panic (sent : List Sample)
  deriving DecidableEq, Repr

/-- The samples sent. -/
def Run.sent : Run → List Sample
  | .done s => s
  | .panic s => s

/-- Whether the code panicked. -/
def Run.panicked : Run → Bool
  | .done _ => false
  | .panic _ => true

/-- Sequencing: the second part runs only if the first ran to its end. -/
def Run.andThen : Run → Run → Run
  | .done s, .done t => .done (s ++ t)
  | .done s, .panic t => .panic (s ++ t)
  | .panic s, _ => .panic s

/-- A `for _, x := range xs` loop whose body sends samples and may panic. -/
def forRange {α : Type} (body : α → Run) : List α → Run
  | [] => .done []
  | x :: xs => (body x).andThen (forRange body xs)

/-- The request `retrive` sends. -/
def lastRequest (sub name period : String) : DescribeMetricLastRequest :=
  { ReadTimeout := 50, Namespace := sub, MetricName := name, Period := period }

/-- The method `MetricClient.retrive`. -/
def MetricClient.retrive (c : MetricClient) (lib : GoLib) (sub name period : String) :
    Except Error (List Datapoint) :=
  match c.cms.DescribeMetricLast (lastRequest sub name period) with
  | .error err => .error err
  | .ok resp =>
    match lib.jsonUnmarshal resp.Datapoints with
    | .error err => .error err
    | .ok datapoints => .ok datapoints

/-- The body of the loop over `datapoints` when no claim is configured. -/
def plainStep (c : MetricClient) (lib : GoLib) (ns sub : String) (m : config.Metric)
    (dp : Datapoint) : Run :=
  match dp.Get m.Measure with
  | .error _ => .panic []
  | .ok val =>
    .done [{ ns := ns, sub := sub, labels := dp.Labels, value := val,
             labelValues := dp.Values lib m.Dimensions ++ [c.cloudID] }]

/-- The body of the innermost loop, over the instances of one claim. -/
def instanceStep (c : MetricClient) (lib : GoLib) (ns sub : String) (m : config.Metric)
    (dp : Datapoint) (claim : config.Claim) (inst : String) : Run :=
  match (dp.index "instanceId").assertString with
  | .error _ => .panic []
  | .ok id =>
    if id = inst then
      match dp.Get m.Measure with
      | .error _ => .panic []
      | .ok val =>
        .done [{ ns := ns, sub := sub, labels := dp.Labels, value := val,
                 labelValues :=
                   dp.Values lib m.Dimensions ++ [c.cloudID, claim.App, claim.Team] }]
    else .done []

/-- The body of the loop over `datapoints` when claims are configured: the loop
over the claims and, inside it, the loop over each claim's instances. -/
def claimsStep (c : MetricClient) (lib : GoLib) (ns sub : String) (m : config.Metric)
    (dp : Datapoint) : Run :=
  forRange (fun claim => forRange (instanceStep c lib ns sub m dp claim) claim.Instance)
    m.Spec.Claim

/-- What one call of `Collect` did: the requests it sent to the cloud API and what
it did to `ch`. -/
structure Outcome where
  requests : List DescribeMetricLastRequest
  run : Run
  deriving DecidableEq, Repr

/-- The method `MetricClient.Collect`. -/
def MetricClient.Collect (c : MetricClient) (lib : GoLib) (ns sub : String)
    (m : config.Metric) : Outcome :=
  if m.Name = "" then
    { requests := [], run := .done [] }
  else
    match c.retrive lib sub m.Name m.Period with
    | .error _ => { requests := [lastRequest sub m.Name m.Period], run := .done [] }
    | .ok datapoints =>
      if m.Spec.Claim.length = 0 then
        { requests := [lastRequest sub m.Name m.Period],
          run := forRange (plainStep c lib ns sub m) datapoints }
      else
        { requests := [lastRequest sub m.Name m.Period],
          run := forRange (claimsStep c lib ns sub m) datapoints }

/-- The loop of `filterNamespaces`, with `filters` as accumulator and `all` the
value a call of `allNamesOfNamespaces` returns. -/
def filterLoop (all : List String) : List String → List String → List String
  | [], filters => filters
  | ns :: rest, filters =>
    if ns = "all" then all
    else if (allNamespaces.lookup ns).isSome then filterLoop all rest (filters ++ [ns])
    else filterLoop all rest filters

/-- The function `filterNamespaces`. -/
def filterNamespaces (it : NamespaceRange) (namespaces : List String) : List String :=
  if namespaces.length = 0 then allNamesOfNamespaces it
  else filterLoop (allNamesOfNamespaces it) namespaces []

/-- The assignment `m[k] = v` on a map. -/
def mapSet {β : Type} : List (String × β) → String → β → List (String × β)
  | [], k, v => [(k, v)]
  | (k0, v0) :: rest, k, v =>
    if k0 = k then (k, v) :: rest else (k0, v0) :: mapSet rest k v

/-- The loop of `DescribeMetricMetaList` over the filtered namespaces, with the map
`m` as accumulator; the first failing call ends it with its error. -/
def metaListLoop (c : MetricClient) :
    List String → List (String × List Resource) → Except Error (List (String × List Resource))
  | [], m => .ok m
  | ns :: rest, m =>
    match c.cms.DescribeMetricMetaList { Namespace := ns, PageSize := 100 } with
    | .error err => .error err
    | .ok resp => metaListLoop c rest (mapSet m ns resp.Resource)

/-- The method `MetricClient.DescribeMetricMetaList`. -/
def MetricClient.DescribeMetricMetaList (c : MetricClient) (it : NamespaceRange)
    (namespaces : List String) : Except Error (List (String × List Resource)) :=
  metaListLoop c (filterNamespaces it namespaces) []

/-! ## The configuration defaults (`pkg/config/config.go`) -/

namespace config

/-- The type `Credential`. -/
structure Credential where
  AccessKey : String
  AccessKeySecret : String
  Region : String
  deriving DecidableEq, Repr

/-- The type `Config`: the map of credentials by account id and the map from
namespace to the metrics configured for it. The slices of the second map hold
pointers; the model holds the metrics pointed to. -/
structure Config where
  Credentials : List (String × Credential)
  Metrics : List (String × List Metric)

/-- The first loop of `SetDefaults`, over the keys the `range` visits, with the map
as accumulator. The index expression `c.Credentials[key]` reads the zero
`Credential` when the key is absent. -/
def credentialsLoop :
    List String → List (String × Credential) → List (String × Credential)
  | [], creds => creds
  | key :: rest, creds =>
    if ((creds.lookup key).getD ⟨"", "", ""⟩).Region = "" then
      credentialsLoop rest
        (mapSet creds key
          { (creds.lookup key).getD ⟨"", "", ""⟩ with Region := "cn-hangzhou" })
    else credentialsLoop rest creds

/-- The method `Config.SetDefaults`. Modelled from the spec: the method
`Metric.setDefaults`, declared outside the given sources, is the parameter
`setDefaults`, what it does to the metric it is called on. -/
def Config.SetDefaults (setDefaults : Metric → Metric) (c : Config) : Config :=
  { Credentials := credentialsLoop (c.Credentials.map Prod.fst) c.Credentials,
    Metrics := c.Metrics.map fun nm => (nm.1, nm.2.map setDefaults) }

end config

/-! ## Concrete inputs used by the examples -/

/-- The catalog visited in source order. -/
def sourceOrder : NamespaceRange :=
  ⟨namespaceKeys, List.Perm.refl _⟩

/-- The catalog visited in the reverse of the source order. -/
def reverseOrder : NamespaceRange :=
  ⟨namespaceKeys.reverse, List.reverse_perm _⟩

/-- The datapoint `{instanceId:"i-1", Average:42.0, timestamp:1000}`. -/
def dpOne : Datapoint :=
  ⟨[("instanceId", .str "i-1"), ("Average", .num 42), ("timestamp", .num 1000)], by decide⟩

/-- The same keys as `dpOne`, visited in another order and holding other values. -/
def dpOneShuffled : Datapoint :=
  ⟨[("timestamp", .num 2000), ("instanceId", .str "i-9"), ("Average", .str "n/a")], by decide⟩

/-- The datapoint `{instanceId:"i-2", Average:7.0, timestamp:1000}`. -/
def dpTwo : Datapoint :=
  ⟨[("instanceId", .str "i-2"), ("Average", .num 7), ("timestamp", .num 1000)], by decide⟩

/-- A datapoint without an `instanceId` field. -/
def dpNoInstance : Datapoint :=
  ⟨[("userId", .str "u-1"), ("Average", .num 3), ("timestamp", .num 1000)], by decide⟩

/-- A datapoint whose `Average` field holds a string. -/
def dpTextMeasure : Datapoint :=
  ⟨[("instanceId", .str "i-1"), ("Average", .str "n/a"), ("timestamp", .num 1000)], by decide⟩

/-- A library whose decoder yields `dps`. None of the examples prints an operand
that is not a string. -/
def libDecoding (dps : List Datapoint) : GoLib :=
  { jsonUnmarshal := fun _ => .ok dps, sprintfNonString := fun _ => "%!s(<nil>)" }

/-- A library whose decoder rejects the payload. -/
def libRejecting : GoLib :=
  { jsonUnmarshal := fun _ => .error "unexpected end of JSON input",
    sprintfNonString := fun _ => "%!s(<nil>)" }

/-- A client of account `acct-1` whose API calls succeed. -/
def clientUp : MetricClient :=
  { cloudID := "acct-1",
    cms := { DescribeMetricLast := fun _ => .ok ⟨"[...]"⟩,
             DescribeMetricMetaList := fun _ => .ok ⟨[]⟩ } }

/-- A client of account `acct-1` whose API calls fail. -/
def clientDown : MetricClient :=
  { cloudID := "acct-1",
    cms := { DescribeMetricLast := fun _ => .error "dial tcp: i/o timeout",
             DescribeMetricMetaList := fun _ => .error "dial tcp: i/o timeout" } }

/-- The metric `CPUUtilization` read from `Average`, with dimension `instanceId` and
the given claims. -/
def cpuMetric (claims : List config.Claim) : config.Metric :=
  { Name := "CPUUtilization", Period := "60", Measure := "Average",
    Dimensions := ["instanceId"], Spec := { Claim := claims } }

/-- The claim `{instance:["i-1"], app:"web", team:"infra"}`. -/
def claimWeb : config.Claim :=
  { Instance := ["i-1"], App := "web", Team := "infra" }

/-- A claim that lists `i-1` twice. -/
def claimTwice : config.Claim :=
  { Instance := ["i-1", "i-1"], App := "web", Team := "infra" }

/-- The metric `CPUUtilization` with its name left empty. -/
def namelessMetric (claims : List config.Claim) : config.Metric :=
  { Name := "", Period := "60", Measure := "Average",
    Dimensions := ["instanceId"], Spec := { Claim := claims } }

/-- A claim for the instance `i-2`. -/
def claimDb : config.Claim :=
  { Instance := ["i-2"], App := "db", Team := "data" }

/-- A configuration with two accounts: `acct-1` without a region, `acct-2` in
`cn-beijing`. -/
def configTwoAccounts : config.Config :=
  { Credentials := [("acct-1", ⟨"ak-1", "secret-1", ""⟩),
                    ("acct-2", ⟨"ak-2", "secret-2", "cn-beijing"⟩)],
    Metrics := [("acs_ecs_dashboard", [cpuMetric []])] }

/-- A client whose metadata listing answers, for every namespace, with one resource
named after the namespace. -/
def clientMeta : MetricClient :=
  { cloudID := "acct-1",
    cms := { DescribeMetricLast := fun _ => .ok ⟨"[...]"⟩,
             DescribeMetricMetaList := fun req => .ok ⟨[⟨req.Namespace⟩]⟩ } }

/-- A client whose metadata listing fails for `acs_kafka` and answers for every
other namespace. -/
def clientMetaKafkaDown : MetricClient :=
  { cloudID := "acct-1",
    cms := { DescribeMetricLast := fun _ => .ok ⟨"[...]"⟩,
             DescribeMetricMetaList := fun req =>
               if req.Namespace = "acs_kafka" then .error "Throttling.User"
               else .ok ⟨[⟨req.Namespace⟩]⟩ } }

/-! ## Lemmas about the loops -/

theorem foldl_append_unless {α β : Type} (p : α → Bool) (f : α → β) (xs : List α)
    (init : List β) :
    xs.foldl (fun acc x => if p x then acc else acc ++ [f x]) init
      = init ++ (xs.filter (fun x => !p x)).map f := by
  induction xs generalizing init with
  | nil => simp
  | cons x xs ih =>
    simp only [List.foldl_cons, ih, List.filter_cons]
    cases p x <;> simp

theorem foldl_append_each {α β : Type} (f : α → β) (xs : List α) (init : List β) :
    xs.foldl (fun acc x => acc ++ [f x]) init = init ++ xs.map f := by
  induction xs generalizing init with
  | nil => simp
  | cons x xs ih => simp [List.foldl_cons, ih]

theorem allNamesOfNamespaces_eq (it : NamespaceRange) : allNamesOfNamespaces it = it.names := by
  simpa [allNamesOfNamespaces] using foldl_append_each (fun s : String => s) it.names []

theorem Datapoint.Labels_eq (d : Datapoint) :
    d.Labels = List.insertionSort (· ≤ ·) (d.keys.filter (fun k => !ignores.contains k)) := by
  unfold Datapoint.Labels Datapoint.keys
  rw [foldl_append_unless (fun kv : String × Value => ignores.contains kv.1) Prod.fst]
  simp [List.filter_map, Function.comp_def]

theorem Datapoint.Values_eq (lib : GoLib) (d : Datapoint) (labels : List String) :
    d.Values lib labels = labels.map (fun l => lib.sprintfS (d.index l)) := by
  simpa [Datapoint.Values] using
    foldl_append_each (fun l => lib.sprintfS (d.index l)) labels []

theorem Datapoint.mem_Labels (d : Datapoint) (k : String) :
    k ∈ d.Labels ↔ k ∈ d.keys ∧ k ∉ ignores := by
  rw [Datapoint.Labels_eq, (List.perm_insertionSort _ _).mem_iff]
  simp

theorem Datapoint.Labels_sorted (d : Datapoint) : d.Labels.Sorted (· ≤ ·) := by
  rw [Datapoint.Labels_eq]
  exact List.sorted_insertionSort _ _

theorem Datapoint.Labels_nodup (d : Datapoint) : d.Labels.Nodup := by
  rw [Datapoint.Labels_eq, (List.perm_insertionSort _ _).nodup_iff]
  exact d.nodupKeys.filter _

theorem lookup_isSome_iff_mem_keys {β : Type} (l : List (String × β)) (k : String) :
    (l.lookup k).isSome = true ↔ k ∈ l.map Prod.fst := by
  induction l with
  | nil => simp
  | cons kv l ih =>
    obtain ⟨a, b⟩ := kv
    by_cases h : k = a
    · subst h; simp [List.lookup]
    · have h2 : (k == a) = false := by simpa using h
      simp [List.lookup, h2, ih, h]

/-! ## Properties of the datapoint methods -/

/-- C1: `Labels` returns exactly the keys of the datapoint that are not reserved, in
ascending order and without repetition; two datapoints with the same key set have
the same labels, whatever their values and iteration order. -/
theorem Datapoint.Labels_spec (d e : Datapoint) (hkeys : ∀ k, k ∈ d.keys ↔ k ∈ e.keys) :
    (∀ k, k ∈ d.Labels ↔
        k ∈ d.keys ∧ k ∉ ["timestamp", "Maximum", "Minimum", "Average"])
      ∧ d.Labels.Sorted (· ≤ ·)
      ∧ d.Labels.Nodup
      ∧ d.Labels = e.Labels := by
  refine ⟨fun k => d.mem_Labels k, d.Labels_sorted, d.Labels_nodup, ?_⟩
  apply List.eq_of_perm_of_sorted _ d.Labels_sorted e.Labels_sorted
  rw [List.perm_ext_iff_of_nodup d.Labels_nodup e.Labels_nodup]
  intro k
  rw [d.mem_Labels, e.mem_Labels, hkeys]

/-- C1 at `dpOne` and `dpOneShuffled`: same keys, other order and values, and the
labels of both are `["instanceId"]`. -/
theorem Datapoint.Labels_spec_witness :
    dpOne.Labels = ["instanceId"]
      ∧ (∀ k, k ∈ dpOne.Labels ↔
          k ∈ dpOne.keys ∧ k ∉ ["timestamp", "Maximum", "Minimum", "Average"])
      ∧ dpOne.Labels.Sorted (· ≤ ·)
      ∧ dpOne.Labels.Nodup
      ∧ dpOne.Labels = dpOneShuffled.Labels :=
  ⟨by decide,
    Datapoint.Labels_spec dpOne dpOneShuffled (by
      intro k
      simp only [Datapoint.keys, dpOne, dpOneShuffled, List.map_cons, List.map_nil,
        List.mem_cons, List.mem_nil_iff, or_false]
      tauto)⟩

/-- C4: on the datapoint `dpTextMeasure`, whose `Average` field holds a string,
`Get` panics instead of returning `0`, and a `Collect` over the batch
`[dpTextMeasure, dpTwo]` without claims panics before any sample is sent, so the
sample of `dpTwo` is lost as well. -/
theorem Datapoint.Get_text_measure_panics :
    dpTextMeasure.Get "Average" = .error .interfaceConversion
      ∧ (clientUp.Collect (libDecoding [dpTextMeasure, dpTwo]) "acs" "acs_ecs_dashboard"
          (cpuMetric [])).run = .panic [] := by
  constructor <;> rfl

/-- C5: `Get` of a measure that is not a key of the datapoint is `0`, without a
panic, and `Get` of a measure whose field holds a number is that number. -/
theorem Datapoint.Get_spec (d : Datapoint) (measure : String) :
    (measure ∉ d.keys → d.Get measure = .ok 0)
      ∧ (∀ x : Float64, d.lookup measure = some (.num x) → d.Get measure = .ok x) := by
  constructor
  · intro h
    have hnone : d.lookup measure = none := by
      cases hl : d.lookup measure with
      | none => rfl
      | some v =>
        have hs : (d.entries.lookup measure).isSome = true := by
          have hl2 : d.entries.lookup measure = some v := hl
          simp [hl2]
        exact absurd ((lookup_isSome_iff_mem_keys d.entries measure).1 hs) h
    simp [Datapoint.Get, hnone]
  · intro x hx
    simp [Datapoint.Get, hx, Value.assertFloat64]

/-- C5 at `dpOne`: `Maximum` is not a key and reads as `0`; `Average` holds `42` and
reads as `42`. -/
theorem Datapoint.Get_spec_witness :
    "Maximum" ∉ dpOne.keys ∧ dpOne.Get "Maximum" = .ok 0
      ∧ dpOne.lookup "Average" = some (.num 42) ∧ dpOne.Get "Average" = .ok 42 :=
  ⟨by decide, (Datapoint.Get_spec dpOne "Maximum").1 (by decide), rfl,
    (Datapoint.Get_spec dpOne "Average").2 42 rfl⟩

/-! ## Properties of the namespace catalog -/

theorem namespaceKeys_nodup : namespaceKeys.Nodup := by
  decide

theorem namespaceKeys_length : namespaceKeys.length = 20 := by
  rfl

theorem all_not_mem_namespaceKeys : "all" ∉ namespaceKeys := by
  decide

theorem filterLoop_of_all_mem (all : List String) (namespaces filters : List String)
    (h : "all" ∈ namespaces) : filterLoop all namespaces filters = all := by
  induction namespaces generalizing filters with
  | nil => simp at h
  | cons ns rest ih =>
    by_cases hns : ns = "all"
    · simp [filterLoop, hns]
    · have hrest : "all" ∈ rest := by
        rcases List.mem_cons.1 h with h1 | h1
        · exact absurd h1.symm hns
        · exact h1
      simp only [filterLoop, hns, if_false]
      split
      · exact ih _ hrest
      · exact ih _ hrest

theorem filterLoop_of_all_not_mem (all : List String) (namespaces filters : List String)
    (h : "all" ∉ namespaces) :
    filterLoop all namespaces filters
      = filters ++ namespaces.filter (fun ns => decide (ns ∈ namespaceKeys)) := by
  induction namespaces generalizing filters with
  | nil => simp [filterLoop]
  | cons ns rest ih =>
    have hns : ns ≠ "all" := fun e => h (by simp [e])
    have hrest : "all" ∉ rest := fun e => h (List.mem_cons_of_mem _ e)
    simp only [filterLoop, hns, if_false]
    by_cases hk : ns ∈ namespaceKeys
    · have hs : (allNamespaces.lookup ns).isSome = true :=
        (lookup_isSome_iff_mem_keys allNamespaces ns).2 hk
      simp [hs, ih _ hrest, List.filter_cons, hk]
    · have hs : ¬ (allNamespaces.lookup ns).isSome = true := fun e =>
        hk ((lookup_isSome_iff_mem_keys allNamespaces ns).1 e)
      simp [hs, ih _ hrest, List.filter_cons, hk]

/-- C7: on the empty input and on every input that contains `"all"`,
`filterNamespaces` returns the whole catalog: its elements are exactly the keys of
`allNamespaces`, each key occurs once, and there are 20 of them. -/
theorem filterNamespaces_all (it : NamespaceRange) (namespaces : List String)
    (h : namespaces = [] ∨ "all" ∈ namespaces) :
    (∀ k, k ∈ filterNamespaces it namespaces ↔ k ∈ allNamespaces.map Prod.fst)
      ∧ (∀ k ∈ allNamespaces.map Prod.fst, (filterNamespaces it namespaces).count k = 1)
      ∧ (filterNamespaces it namespaces).Nodup
      ∧ (filterNamespaces it namespaces).length = 20 := by
  have hall : filterNamespaces it namespaces = it.names := by
    rcases h with h | h
    · simp [filterNamespaces, h, allNamesOfNamespaces_eq]
    · have hne : namespaces.length ≠ 0 := by
        intro e
        rw [List.length_eq_zero] at e
        simp [e] at h
      simp [filterNamespaces, hne, filterLoop_of_all_mem _ _ _ h, allNamesOfNamespaces_eq]
  have hnd : it.names.Nodup := it.perm.nodup_iff.2 namespaceKeys_nodup
  rw [hall]
  refine ⟨fun k => it.perm.mem_iff, ?_, hnd, ?_⟩
  · intro k hk
    exact List.count_eq_one_of_mem hnd (it.perm.mem_iff.2 hk)
  · rw [it.perm.length_eq, namespaceKeys_length]

/-- C7 at the inputs `[]` and `["acs_kafka", "all", "nope"]`, with the catalog
visited in reverse order. -/
theorem filterNamespaces_all_witness :
    ((∀ k, k ∈ filterNamespaces reverseOrder [] ↔ k ∈ allNamespaces.map Prod.fst)
      ∧ (∀ k ∈ allNamespaces.map Prod.fst, (filterNamespaces reverseOrder []).count k = 1)
      ∧ (filterNamespaces reverseOrder []).Nodup
      ∧ (filterNamespaces reverseOrder []).length = 20)
    ∧ "all" ∈ ["acs_kafka", "all", "nope"]
    ∧ (filterNamespaces reverseOrder ["acs_kafka", "all", "nope"]).length = 20 :=
  ⟨filterNamespaces_all reverseOrder [] (Or.inl rfl), by decide,
    (filterNamespaces_all reverseOrder ["acs_kafka", "all", "nope"]
      (Or.inr (by decide))).2.2.2⟩

/-- C8: on a non-empty input without `"all"`, `filterNamespaces` returns the
requested identifiers that are keys of `allNamespaces`, in input order, and drops
the others; `"unknown_ns"` alone gives the empty list and `"acs_ecs_dashboard"`
alone gives itself. -/
theorem filterNamespaces_registered (it : NamespaceRange) (namespaces : List String)
    (hne : namespaces ≠ []) (hall : "all" ∉ namespaces) :
    filterNamespaces it namespaces
        = namespaces.filter (fun ns => decide (ns ∈ allNamespaces.map Prod.fst))
      ∧ filterNamespaces it ["unknown_ns"] = []
      ∧ filterNamespaces it ["acs_ecs_dashboard"] = ["acs_ecs_dashboard"] := by
  have hlen : namespaces.length ≠ 0 := fun e => hne (List.length_eq_zero.1 e)
  refine ⟨?_, ?_, ?_⟩
  · simpa [filterNamespaces, hlen] using filterLoop_of_all_not_mem _ namespaces [] hall
  · simp [filterNamespaces, filterLoop, allNamespaces, List.lookup]
  · simp [filterNamespaces, filterLoop, allNamespaces, List.lookup]

/-- C8 at the input `["waf", "nope", "acs_kafka", "waf"]`: the unregistered entry is
dropped, order and repetition are kept. -/
theorem filterNamespaces_registered_witness :
    filterNamespaces sourceOrder ["waf", "nope", "acs_kafka", "waf"]
        = ["waf", "acs_kafka", "waf"]
      ∧ filterNamespaces sourceOrder ["unknown_ns"] = []
      ∧ filterNamespaces sourceOrder ["acs_ecs_dashboard"] = ["acs_ecs_dashboard"] := by
  have h := filterNamespaces_registered sourceOrder ["waf", "nope", "acs_kafka", "waf"]
    (by decide) (by decide)
  refine ⟨?_, h.2⟩
  rw [h.1]
  decide

/-! ## Lemmas about `Collect` -/

theorem Run.done_nil_andThen (r : Run) : (Run.done []).andThen r = r := by
  cases r <;> rfl

theorem Run.andThen_done_nil (r : Run) : r.andThen (.done []) = r := by
  cases r <;> simp [Run.andThen]

theorem Run.andThen_assoc (r s t : Run) : (r.andThen s).andThen t = r.andThen (s.andThen t) := by
  cases r <;> cases s <;> cases t <;> simp [Run.andThen]

theorem Run.sent_done_andThen (out : List Sample) (r : Run) :
    ((Run.done out).andThen r).sent = out ++ r.sent := by
  cases r <;> rfl

theorem forRange_append {α : Type} (body : α → Run) (xs ys : List α) :
    forRange body (xs ++ ys) = (forRange body xs).andThen (forRange body ys) := by
  induction xs with
  | nil => simp [forRange, Run.done_nil_andThen]
  | cons x xs ih => simp [forRange, ih, Run.andThen_assoc]

theorem forRange_done {α : Type} (body : α → Run) (f : α → List Sample) (xs : List α)
    (h : ∀ x ∈ xs, body x = .done (f x)) : forRange body xs = .done (xs.flatMap f) := by
  induction xs with
  | nil => rfl
  | cons x xs ih =>
    have hx : body x = .done (f x) := h x (List.mem_cons_self _ _)
    have hxs : forRange body xs = .done (xs.flatMap f) :=
      ih (fun y hy => h y (List.mem_cons_of_mem _ hy))
    simp [forRange, hx, hxs, Run.andThen]

theorem flatMap_if_eq_replicate (id : String) (s : Sample) (l : List String) :
    l.flatMap (fun inst => if id = inst then [s] else []) = List.replicate (l.count id) s := by
  induction l with
  | nil => rfl
  | cons a l ih =>
    by_cases h : id = a
    · subst h
      simp [List.flatMap_cons, ih, List.replicate_succ]
    · have h2 : ¬ a = id := fun e => h e.symm
      simp [List.flatMap_cons, ih, h, List.count_cons, h2]

theorem Datapoint.index_of_lookup (d : Datapoint) (k : String) (v : Value)
    (h : d.lookup k = some v) : d.index k = v := by
  simp [Datapoint.index, h]

theorem instanceStep_of_string (c : MetricClient) (lib : GoLib) (ns sub : String)
    (m : config.Metric) (dp : Datapoint) (cl : config.Claim) (inst id : String)
    (val : Float64) (hid : dp.lookup "instanceId" = some (.str id))
    (hget : dp.Get m.Measure = .ok val) :
    instanceStep c lib ns sub m dp cl inst
      = .done (if id = inst then
          [{ ns := ns, sub := sub, labels := dp.Labels, value := val,
             labelValues := dp.Values lib m.Dimensions ++ [c.cloudID, cl.App, cl.Team] }]
        else []) := by
  unfold instanceStep
  rw [dp.index_of_lookup _ _ hid]
  by_cases h : id = inst
  · simp [Value.assertString, h, hget]
  · simp [Value.assertString, h]

theorem instanceStep_of_ne (c : MetricClient) (lib : GoLib) (ns sub : String)
    (m : config.Metric) (dp : Datapoint) (cl : config.Claim) (inst id : String)
    (hid : dp.lookup "instanceId" = some (.str id)) (hne : id ≠ inst) :
    instanceStep c lib ns sub m dp cl inst = .done [] := by
  unfold instanceStep
  rw [dp.index_of_lookup _ _ hid]
  simp [Value.assertString, hne]

theorem claimsStep_of_string (c : MetricClient) (lib : GoLib) (ns sub : String)
    (m : config.Metric) (dp : Datapoint) (id : String) (val : Float64)
    (hid : dp.lookup "instanceId" = some (.str id)) (hget : dp.Get m.Measure = .ok val) :
    claimsStep c lib ns sub m dp
      = .done (m.Spec.Claim.flatMap fun cl =>
          List.replicate (cl.Instance.count id)
            { ns := ns, sub := sub, labels := dp.Labels, value := val,
              labelValues := dp.Values lib m.Dimensions ++ [c.cloudID, cl.App, cl.Team] }) := by
  unfold claimsStep
  apply forRange_done
  intro cl _
  rw [← flatMap_if_eq_replicate]
  apply forRange_done
  intro inst _
  exact instanceStep_of_string c lib ns sub m dp cl inst id val hid hget

theorem Collect_run_claims (c : MetricClient) (lib : GoLib) (ns sub : String)
    (m : config.Metric) (dps : List Datapoint) (hname : m.Name ≠ "")
    (hclaims : m.Spec.Claim ≠ []) (hret : c.retrive lib sub m.Name m.Period = .ok dps) :
    (c.Collect lib ns sub m).run = forRange (claimsStep c lib ns sub m) dps := by
  have hlen : m.Spec.Claim.length ≠ 0 := fun e => hclaims (List.length_eq_zero.1 e)
  simp [MetricClient.Collect, hname, hret, hlen]

theorem Collect_run_plain (c : MetricClient) (lib : GoLib) (ns sub : String)
    (m : config.Metric) (dps : List Datapoint) (hname : m.Name ≠ "")
    (hclaims : m.Spec.Claim = []) (hret : c.retrive lib sub m.Name m.Period = .ok dps) :
    (c.Collect lib ns sub m).run = forRange (plainStep c lib ns sub m) dps := by
  simp [MetricClient.Collect, hname, hret, hclaims]

/-- Without claims, a batch in which `Get` returns on every datapoint (`vals dp` being
what it returns) yields one sample per datapoint, in batch order. -/
theorem Collect_plain_samples (c : MetricClient) (lib : GoLib) (ns sub : String)
    (m : config.Metric) (dps : List Datapoint) (vals : Datapoint → Float64)
    (hname : m.Name ≠ "") (hclaims : m.Spec.Claim = [])
    (hret : c.retrive lib sub m.Name m.Period = .ok dps)
    (hget : ∀ dp ∈ dps, dp.Get m.Measure = .ok (vals dp)) :
    (c.Collect lib ns sub m).run
      = .done (dps.map fun dp =>
          { ns := ns, sub := sub, labels := dp.Labels, value := vals dp,
            labelValues := dp.Values lib m.Dimensions ++ [c.cloudID] }) := by
  rw [Collect_run_plain c lib ns sub m dps hname hclaims hret]
  rw [forRange_done (plainStep c lib ns sub m)
    (fun dp => [{ ns := ns, sub := sub, labels := dp.Labels, value := vals dp,
                  labelValues := dp.Values lib m.Dimensions ++ [c.cloudID] }])]
  · rw [← List.map_eq_flatMap]
  · intro dp hdp
    simp [plainStep, hget dp hdp]

theorem flatMap_replicate_count_of_nodup (id : String) (g : config.Claim → Sample)
    (claims : List config.Claim) (hnd : ∀ cl ∈ claims, cl.Instance.Nodup) :
    (claims.flatMap fun cl => List.replicate (cl.Instance.count id) (g cl))
      = (claims.filter fun cl => decide (id ∈ cl.Instance)).map g := by
  induction claims with
  | nil => rfl
  | cons cl claims ih =>
    have hcl : cl.Instance.Nodup := hnd cl (List.mem_cons_self _ _)
    have htl := ih (fun x hx => hnd x (List.mem_cons_of_mem _ hx))
    by_cases hmem : id ∈ cl.Instance
    · have hc : cl.Instance.count id = 1 := List.count_eq_one_of_mem hcl hmem
      simp [List.flatMap_cons, htl, hc, hmem, List.filter_cons]
    · have hc : cl.Instance.count id = 0 := List.count_eq_zero_of_not_mem hmem
      simp [List.flatMap_cons, htl, hc, hmem, List.filter_cons]

/-! ## Properties of `Collect` -/

/-- C2, as amended: with a non-empty claim list, a datapoint that the loop reaches,
whose `instanceId` is the string `id` and on which `Get` returns `val`, produces for
each claim, in claim order, one sample per occurrence of `id` in that claim's
instance list; when no instance list repeats an entry this is exactly one sample per
claim that lists `id`. Each sample has value `val` and the label values
`Values(dimensions...)` followed by the account id, the claim's App and its Team.
The samples of the datapoint follow those of the earlier datapoints on the channel. -/
theorem Collect_claimed_datapoint (c : MetricClient) (lib : GoLib) (ns sub : String)
    (m : config.Metric) (pre post : List Datapoint) (dp : Datapoint)
    (sentBefore : List Sample) (id : String) (val : Float64)
    (hname : m.Name ≠ "") (hclaims : m.Spec.Claim ≠ [])
    (hret : c.retrive lib sub m.Name m.Period = .ok (pre ++ dp :: post))
    (hpre : forRange (claimsStep c lib ns sub m) pre = .done sentBefore)
    (hid : dp.lookup "instanceId" = some (.str id))
    (hget : dp.Get m.Measure = .ok val) :
    claimsStep c lib ns sub m dp
        = .done (m.Spec.Claim.flatMap fun cl =>
            List.replicate (cl.Instance.count id)
              { ns := ns, sub := sub, labels := dp.Labels, value := val,
                labelValues :=
                  dp.Values lib m.Dimensions ++ [c.cloudID, cl.App, cl.Team] })
      ∧ ((∀ cl ∈ m.Spec.Claim, cl.Instance.Nodup) →
          claimsStep c lib ns sub m dp
            = .done ((m.Spec.Claim.filter fun cl => decide (id ∈ cl.Instance)).map fun cl =>
                { ns := ns, sub := sub, labels := dp.Labels, value := val,
                  labelValues :=
                    dp.Values lib m.Dimensions ++ [c.cloudID, cl.App, cl.Team] }))
      ∧ (c.Collect lib ns sub m).run.sent
          = sentBefore ++ (claimsStep c lib ns sub m dp).sent
              ++ (forRange (claimsStep c lib ns sub m) post).sent := by
  have hstep := claimsStep_of_string c lib ns sub m dp id val hid hget
  refine ⟨hstep, ?_, ?_⟩
  · intro hnd
    rw [hstep, flatMap_replicate_count_of_nodup id _ _ hnd]
  · rw [Collect_run_claims c lib ns sub m _ hname hclaims hret, forRange_append, hpre]
    simp only [forRange]
    rw [hstep, Run.sent_done_andThen, Run.sent_done_andThen, Run.sent, List.append_assoc]

/-- C2, as amended, on the batch `[dpTwo, dpOne, dpTwo]` with the claim
`{instance:["i-1"], app:"web", team:"infra"}`: `dpOne` produces one sample, with label
values `["i-1", "acct-1", "web", "infra"]`, and it is all the call sends. -/
theorem Collect_claimed_datapoint_witness :
    claimsStep clientUp (libDecoding [dpTwo, dpOne, dpTwo]) "acs" "acs_ecs_dashboard"
        (cpuMetric [claimWeb]) dpOne
        = .done [{ ns := "acs", sub := "acs_ecs_dashboard", labels := ["instanceId"],
                   value := 42, labelValues := ["i-1", "acct-1", "web", "infra"] }]
      ∧ (clientUp.Collect (libDecoding [dpTwo, dpOne, dpTwo]) "acs" "acs_ecs_dashboard"
          (cpuMetric [claimWeb])).run.sent
          = [] ++ (claimsStep clientUp (libDecoding [dpTwo, dpOne, dpTwo]) "acs"
                    "acs_ecs_dashboard" (cpuMetric [claimWeb]) dpOne).sent
              ++ (forRange (claimsStep clientUp (libDecoding [dpTwo, dpOne, dpTwo]) "acs"
                    "acs_ecs_dashboard" (cpuMetric [claimWeb])) [dpTwo]).sent :=
  have h := Collect_claimed_datapoint clientUp (libDecoding [dpTwo, dpOne, dpTwo]) "acs"
    "acs_ecs_dashboard" (cpuMetric [claimWeb]) [dpTwo] [dpTwo] dpOne [] "i-1" 42
    (by decide) (by simp [cpuMetric]) rfl rfl rfl rfl
  ⟨h.1.trans (by decide), h.2.2⟩

/-- C2, as stated, fails when a claim lists an instance twice: for the claim
`claimTwice` the datapoint `dpOne` produces two samples, although one claim matches. -/
theorem Collect_claimed_twice :
    (clientUp.Collect (libDecoding [dpOne]) "acs" "acs_ecs_dashboard"
        (cpuMetric [claimTwice])).run
        = .done [{ ns := "acs", sub := "acs_ecs_dashboard", labels := ["instanceId"],
                   value := 42, labelValues := ["i-1", "acct-1", "web", "infra"] },
                 { ns := "acs", sub := "acs_ecs_dashboard", labels := ["instanceId"],
                   value := 42, labelValues := ["i-1", "acct-1", "web", "infra"] }]
      ∧ ((cpuMetric [claimTwice]).Spec.Claim.filter
          fun cl => decide ("i-1" ∈ cl.Instance)).length = 1 := by
  constructor
  · decide
  · decide

/-- C3: with the claim `claimWeb`, on the batch `[dpNoInstance, dpOne]`, whose first
datapoint has no `instanceId` field, `Collect` panics at that datapoint before any
sample is sent, so the sample of `dpOne` is lost. -/
theorem Collect_missing_instanceId_panics :
    (clientUp.Collect (libDecoding [dpNoInstance, dpOne]) "acs" "acs_ecs_dashboard"
        (cpuMetric [claimWeb])).run = .panic []
      ∧ (clientUp.Collect (libDecoding [dpOne]) "acs" "acs_ecs_dashboard"
          (cpuMetric [claimWeb])).run
          = .done [{ ns := "acs", sub := "acs_ecs_dashboard", labels := ["instanceId"],
                     value := 42, labelValues := ["i-1", "acct-1", "web", "infra"] }] := by
  constructor
  · decide
  · decide

/-- C6: with a non-empty claim list, a datapoint whose `instanceId` is a string that
no claim lists produces no sample: its pass through the claims sends nothing and the
call does to the channel what it does on the batch without that datapoint. -/
theorem Collect_unclaimed_datapoint (c : MetricClient) (lib : GoLib) (ns sub : String)
    (m : config.Metric) (pre post : List Datapoint) (dp : Datapoint) (id : String)
    (hname : m.Name ≠ "") (hclaims : m.Spec.Claim ≠ [])
    (hret : c.retrive lib sub m.Name m.Period = .ok (pre ++ dp :: post))
    (hid : dp.lookup "instanceId" = some (.str id))
    (hno : ∀ cl ∈ m.Spec.Claim, id ∉ cl.Instance) :
    claimsStep c lib ns sub m dp = .done []
      ∧ (c.Collect lib ns sub m).run = forRange (claimsStep c lib ns sub m) (pre ++ post) := by
  have hstep : claimsStep c lib ns sub m dp = .done [] := by
    unfold claimsStep
    rw [forRange_done _ (fun _ => [])]
    · simp
    · intro cl hcl
      rw [forRange_done _ (fun _ => [])]
      · simp
      · intro inst hinst
        apply instanceStep_of_ne c lib ns sub m dp cl inst id hid
        intro e
        exact hno cl hcl (e ▸ hinst)
  refine ⟨hstep, ?_⟩
  rw [Collect_run_claims c lib ns sub m _ hname hclaims hret, forRange_append,
    forRange_append]
  simp only [forRange]
  rw [hstep, Run.done_nil_andThen]

/-- C6 on the batch `[dpOne, dpTwo, dpOne]` with the claim `claimWeb`: `dpTwo`, for
instance `i-2`, sends nothing, and the call sends the two samples of `dpOne`. -/
theorem Collect_unclaimed_datapoint_witness :
    claimsStep clientUp (libDecoding [dpOne, dpTwo, dpOne]) "acs" "acs_ecs_dashboard"
        (cpuMetric [claimWeb]) dpTwo = .done []
      ∧ (clientUp.Collect (libDecoding [dpOne, dpTwo, dpOne]) "acs" "acs_ecs_dashboard"
          (cpuMetric [claimWeb])).run
          = forRange (claimsStep clientUp (libDecoding [dpOne, dpTwo, dpOne]) "acs"
              "acs_ecs_dashboard" (cpuMetric [claimWeb])) ([dpOne] ++ [dpOne]) :=
  Collect_unclaimed_datapoint clientUp (libDecoding [dpOne, dpTwo, dpOne]) "acs"
    "acs_ecs_dashboard" (cpuMetric [claimWeb]) [dpOne] [dpOne] dpTwo "i-2"
    (by decide) (by simp [cpuMetric]) rfl rfl (by decide)

/-- C9: without claims, the batch `[dpOne]` of the scenario yields one sample with
value `42`, labels `["instanceId"]` and label values `["i-1", "acct-1"]`; on the batch
`[dpOne, dpTextMeasure, dpTwo]` the call panics at the second datapoint, whose
`Average` holds a string, having sent one sample for three datapoints. -/
theorem Collect_plain_text_measure_panics :
    (clientUp.Collect (libDecoding [dpOne]) "acs" "acs_ecs_dashboard" (cpuMetric [])).run
        = .done [{ ns := "acs", sub := "acs_ecs_dashboard", labels := ["instanceId"],
                   value := 42, labelValues := ["i-1", "acct-1"] }]
      ∧ (clientUp.Collect (libDecoding [dpOne, dpTextMeasure, dpTwo]) "acs"
          "acs_ecs_dashboard" (cpuMetric [])).run
          = .panic [{ ns := "acs", sub := "acs_ecs_dashboard", labels := ["instanceId"],
                      value := 42, labelValues := ["i-1", "acct-1"] }] := by
  constructor
  · decide
  · decide

/-- C10: when the retrieval fails, because the API call returns an error or because
the datapoints payload cannot be decoded, `retrive` returns that error and `Collect`
runs to its end without sending any sample. -/
theorem Collect_retrieval_failure (c : MetricClient) (lib : GoLib) (ns sub : String)
    (m : config.Metric) (err : Error)
    (hfail : c.cms.DescribeMetricLast (lastRequest sub m.Name m.Period) = .error err
      ∨ ∃ resp, c.cms.DescribeMetricLast (lastRequest sub m.Name m.Period) = .ok resp
          ∧ lib.jsonUnmarshal resp.Datapoints = .error err) :
    c.retrive lib sub m.Name m.Period = .error err
      ∧ (c.Collect lib ns sub m).run = .done []
      ∧ (c.Collect lib ns sub m).run.sent = []
      ∧ (c.Collect lib ns sub m).run.panicked = false := by
  have hret : c.retrive lib sub m.Name m.Period = .error err := by
    rcases hfail with h | ⟨resp, h1, h2⟩
    · simp [MetricClient.retrive, h]
    · simp [MetricClient.retrive, h1, h2]
  have hrun : (c.Collect lib ns sub m).run = .done [] := by
    by_cases hname : m.Name = ""
    · simp [MetricClient.Collect, hname]
    · simp [MetricClient.Collect, hname, hret]
  refine ⟨hret, hrun, ?_, ?_⟩
  · rw [hrun]; rfl
  · rw [hrun]; rfl

/-- C10 for an API call that times out (`clientDown`) and for a payload the decoder
rejects (`libRejecting`). -/
theorem Collect_retrieval_failure_witness :
    (clientDown.Collect (libDecoding [dpOne]) "acs" "acs_ecs_dashboard" (cpuMetric [])).run
        = .done []
      ∧ (clientUp.Collect libRejecting "acs" "acs_ecs_dashboard" (cpuMetric [claimWeb])).run
        = .done [] :=
  ⟨(Collect_retrieval_failure clientDown (libDecoding [dpOne]) "acs" "acs_ecs_dashboard"
      (cpuMetric []) "dial tcp: i/o timeout" (Or.inl rfl)).2.1,
    (Collect_retrieval_failure clientUp libRejecting "acs" "acs_ecs_dashboard"
      (cpuMetric [claimWeb]) "unexpected end of JSON input"
      (Or.inr ⟨⟨"[...]"⟩, rfl, rfl⟩)).2.1⟩

/-! ## Further lemmas about the loops -/

theorem Run.panicked_done_andThen (out : List Sample) (r : Run) :
    ((Run.done out).andThen r).panicked = r.panicked := by
  cases r <;> rfl

theorem forRange_sent_take {α : Type} (body : α → Run) (xs : List α) :
    ∃ k, k ≤ xs.length
      ∧ (forRange body xs).sent = (xs.take k).flatMap (fun x => (body x).sent)
      ∧ ((forRange body xs).panicked = false → k = xs.length) := by
  induction xs with
  | nil => exact ⟨0, Nat.le_refl _, rfl, fun _ => rfl⟩
  | cons x xs ih =>
    obtain ⟨k, hk, hsent, hall⟩ := ih
    cases hx : body x with
    | panic s =>
      refine ⟨1, by simp, ?_, ?_⟩
      · simp [forRange, hx, Run.andThen, Run.sent]
      · simp [forRange, hx, Run.andThen, Run.panicked]
    | done s =>
      refine ⟨k + 1, by simpa using hk, ?_, ?_⟩
      · show ((body x).andThen (forRange body xs)).sent = _
        rw [hx, Run.sent_done_andThen, hsent, List.take_succ_cons, List.flatMap_cons, hx]
        rfl
      · intro hp
        simp only [forRange, hx, Run.panicked_done_andThen] at hp
        simp [hall hp]

theorem forRange_sent_forall {α : Type} (body : α → Run) (xs : List α)
    (P : Sample → Prop) (h : ∀ x ∈ xs, ∀ s ∈ (body x).sent, P s) :
    ∀ s ∈ (forRange body xs).sent, P s := by
  obtain ⟨k, _, hsent, _⟩ := forRange_sent_take body xs
  intro s hs
  rw [hsent, List.mem_flatMap] at hs
  obtain ⟨x, hx, hsx⟩ := hs
  exact h x (List.mem_of_mem_take hx) s hsx

/-! ## Further properties of `Collect` -/

/-- C11: when the metric's name is the empty string, `Collect` returns having sent
no request to the cloud API and no sample, whatever the client, the library, the
namespace and the claims are. -/
theorem Collect_empty_name (c : MetricClient) (lib : GoLib) (ns sub : String)
    (m : config.Metric) (hname : m.Name = "") :
    c.Collect lib ns sub m = { requests := [], run := .done [] } := by
  simp [MetricClient.Collect, hname]

/-- C11 for a nameless metric with a claim, on a client whose API calls would
succeed. -/
theorem Collect_empty_name_witness :
    clientUp.Collect (libDecoding [dpOne]) "acs" "acs_ecs_dashboard"
        (namelessMetric [claimWeb]) = { requests := [], run := .done [] } :=
  Collect_empty_name clientUp (libDecoding [dpOne]) "acs" "acs_ecs_dashboard"
    (namelessMetric [claimWeb]) rfl

/-- C12: in either branch, what `Collect` sends is the concatenation, over the
datapoints in the order the API returned them, of what the pass over each datapoint
sent: the datapoints reached are an initial segment of the batch, and the whole
batch when the call does not panic. In the claims branch the pass over one datapoint
sends, claim after claim in claim order, what the loop over that claim's instances
sent. -/
theorem Collect_sent_in_datapoint_order (c : MetricClient) (lib : GoLib) (ns sub : String)
    (m : config.Metric) (dps : List Datapoint) (hname : m.Name ≠ "")
    (hret : c.retrive lib sub m.Name m.Period = .ok dps) :
    (m.Spec.Claim = [] →
        ∃ k, k ≤ dps.length
          ∧ (c.Collect lib ns sub m).run.sent
              = (dps.take k).flatMap (fun dp => (plainStep c lib ns sub m dp).sent)
          ∧ ((c.Collect lib ns sub m).run.panicked = false → k = dps.length))
      ∧ (m.Spec.Claim ≠ [] →
        ∃ k, k ≤ dps.length
          ∧ (c.Collect lib ns sub m).run.sent
              = (dps.take k).flatMap (fun dp => (claimsStep c lib ns sub m dp).sent)
          ∧ ((c.Collect lib ns sub m).run.panicked = false → k = dps.length))
      ∧ (∀ dp : Datapoint,
        ∃ j, j ≤ m.Spec.Claim.length
          ∧ (claimsStep c lib ns sub m dp).sent
              = (m.Spec.Claim.take j).flatMap
                  (fun cl => (forRange (instanceStep c lib ns sub m dp cl) cl.Instance).sent)
          ∧ ((claimsStep c lib ns sub m dp).panicked = false → j = m.Spec.Claim.length)) := by
  refine ⟨?_, ?_, ?_⟩
  · intro hclaims
    rw [Collect_run_plain c lib ns sub m dps hname hclaims hret]
    exact forRange_sent_take _ dps
  · intro hclaims
    rw [Collect_run_claims c lib ns sub m dps hname hclaims hret]
    exact forRange_sent_take _ dps
  · intro dp
    exact forRange_sent_take _ m.Spec.Claim

/-- C12 on the batch `[dpTwo, dpOne]` with the claims `claimWeb` (for `i-1`) and
`claimDb` (for `i-2`): the sample of `dpTwo` is sent before the sample of `dpOne`,
although the claim for `i-1` comes first. -/
theorem Collect_sent_in_datapoint_order_witness :
    (clientUp.Collect (libDecoding [dpTwo, dpOne]) "acs" "acs_ecs_dashboard"
        (cpuMetric [claimWeb, claimDb])).run
        = .done [{ ns := "acs", sub := "acs_ecs_dashboard", labels := ["instanceId"],
                   value := 7, labelValues := ["i-2", "acct-1", "db", "data"] },
                 { ns := "acs", sub := "acs_ecs_dashboard", labels := ["instanceId"],
                   value := 42, labelValues := ["i-1", "acct-1", "web", "infra"] }]
      ∧ ∃ k, k ≤ [dpTwo, dpOne].length
          ∧ (clientUp.Collect (libDecoding [dpTwo, dpOne]) "acs" "acs_ecs_dashboard"
              (cpuMetric [claimWeb, claimDb])).run.sent
              = ([dpTwo, dpOne].take k).flatMap (fun dp =>
                  (claimsStep clientUp (libDecoding [dpTwo, dpOne]) "acs" "acs_ecs_dashboard"
                    (cpuMetric [claimWeb, claimDb]) dp).sent)
          ∧ ((clientUp.Collect (libDecoding [dpTwo, dpOne]) "acs" "acs_ecs_dashboard"
              (cpuMetric [claimWeb, claimDb])).run.panicked = false
              → k = [dpTwo, dpOne].length) :=
  ⟨by decide,
    (Collect_sent_in_datapoint_order clientUp (libDecoding [dpTwo, dpOne]) "acs"
      "acs_ecs_dashboard" (cpuMetric [claimWeb, claimDb]) [dpTwo, dpOne]
      (by decide) rfl).2.1 (by simp [cpuMetric])⟩

/-! ## Lemmas about map assignment -/

theorem lookup_mapSet {β : Type} (m : List (String × β)) (k : String) (v : β) (id : String) :
    (mapSet m k v).lookup id = if id = k then some v else m.lookup id := by
  induction m with
  | nil =>
    by_cases h : id = k
    · simp [mapSet, List.lookup, h]
    · have h2 : (id == k) = false := by simpa using h
      simp [mapSet, List.lookup, h, h2]
  | cons kv m ih =>
    obtain ⟨k0, v0⟩ := kv
    by_cases hk : k0 = k
    · subst hk
      by_cases h : id = k0
      · simp [mapSet, List.lookup, h]
      · have h2 : (id == k0) = false := by simpa using h
        simp [mapSet, List.lookup, h, h2]
    · by_cases h0 : id = k0
      · have hne : ¬ id = k := fun e => hk (h0.symm.trans e)
        simp [mapSet, hk, List.lookup, h0, hne]
      · have h2 : (id == k0) = false := by simpa using h0
        simp [mapSet, hk, List.lookup, h2, ih]

theorem mem_keys_mapSet {β : Type} (m : List (String × β)) (k : String) (v : β) (x : String) :
    x ∈ (mapSet m k v).map Prod.fst ↔ x ∈ m.map Prod.fst ∨ x = k := by
  rw [← lookup_isSome_iff_mem_keys, ← lookup_isSome_iff_mem_keys, lookup_mapSet]
  by_cases h : x = k
  · simp [h]
  · simp [h]

theorem keys_mapSet_of_mem {β : Type} (m : List (String × β)) (k : String) (v : β)
    (h : k ∈ m.map Prod.fst) : (mapSet m k v).map Prod.fst = m.map Prod.fst := by
  induction m with
  | nil => simp at h
  | cons kv m ih =>
    obtain ⟨k0, v0⟩ := kv
    by_cases hk : k0 = k
    · simp [mapSet, hk]
    · have hm : k ∈ m.map Prod.fst := by
        rcases List.mem_cons.1 h with h1 | h1
        · exact absurd h1.symm hk
        · exact h1
      simp [mapSet, hk, ih hm]

theorem nodup_keys_mapSet {β : Type} (m : List (String × β)) (k : String) (v : β)
    (h : (m.map Prod.fst).Nodup) : ((mapSet m k v).map Prod.fst).Nodup := by
  induction m with
  | nil => simp [mapSet]
  | cons kv m ih =>
    obtain ⟨k0, v0⟩ := kv
    by_cases hk : k0 = k
    · subst hk
      simpa [mapSet] using h
    · have hnd := List.nodup_cons.1 h
      have hnot : k0 ∉ (mapSet m k v).map Prod.fst := by
        intro hmem
        rcases (mem_keys_mapSet m k v k0).1 hmem with h1 | h1
        · exact hnd.1 h1
        · exact hk h1
      simp only [mapSet, hk, if_false, List.map_cons]
      exact List.nodup_cons.2 ⟨hnot, ih hnd.2⟩

/-! ## Properties of the configuration defaults -/

theorem config.credentialsLoop_spec (ks : List String)
    (creds : List (String × config.Credential))
    (hks : ∀ k ∈ ks, k ∈ creds.map Prod.fst) :
    (config.credentialsLoop ks creds).map Prod.fst = creds.map Prod.fst
      ∧ ∀ id, (config.credentialsLoop ks creds).lookup id
          = if id ∈ ks then
              (creds.lookup id).map (fun cr =>
                if cr.Region = "" then { cr with Region := "cn-hangzhou" } else cr)
            else creds.lookup id := by
  induction ks generalizing creds with
  | nil => simp [config.credentialsLoop]
  | cons key rest ih =>
    have hkey : key ∈ creds.map Prod.fst := hks key (List.mem_cons_self _ _)
    obtain ⟨cr0, hcr0⟩ := Option.isSome_iff_exists.1
      ((lookup_isSome_iff_mem_keys creds key).2 hkey)
    by_cases hreg : cr0.Region = ""
    · have hkeys := keys_mapSet_of_mem creds key
        ({ cr0 with Region := "cn-hangzhou" } : config.Credential) hkey
      have hrest : ∀ k ∈ rest, k ∈ (mapSet creds key
          ({ cr0 with Region := "cn-hangzhou" } : config.Credential)).map Prod.fst := by
        intro k hk
        rw [hkeys]
        exact hks k (List.mem_cons_of_mem _ hk)
      obtain ⟨ih1, ih2⟩ := ih _ hrest
      have hstep : config.credentialsLoop (key :: rest) creds
          = config.credentialsLoop rest (mapSet creds key
              ({ cr0 with Region := "cn-hangzhou" } : config.Credential)) := by
        simp [config.credentialsLoop, hcr0, hreg]
      rw [hstep]
      refine ⟨ih1.trans hkeys, ?_⟩
      intro id
      rw [ih2 id, lookup_mapSet]
      by_cases hid : id = key
      · subst hid
        by_cases hin : id ∈ rest
        · simp [hin, hcr0, hreg]
        · simp [hin, hcr0, hreg]
      · by_cases hin : id ∈ rest
        · simp [hin, hid]
        · simp [hin, hid]
    · have hrest : ∀ k ∈ rest, k ∈ creds.map Prod.fst :=
        fun k hk => hks k (List.mem_cons_of_mem _ hk)
      obtain ⟨ih1, ih2⟩ := ih creds hrest
      have hstep : config.credentialsLoop (key :: rest) creds
          = config.credentialsLoop rest creds := by
        simp [config.credentialsLoop, hcr0, hreg]
      rw [hstep]
      refine ⟨ih1, ?_⟩
      intro id
      rw [ih2 id]
      by_cases hid : id = key
      · subst hid
        by_cases hin : id ∈ rest
        · simp [hin]
        · simp [hin, hcr0, hreg]
      · by_cases hin : id ∈ rest
        · simp [hin, hid]
        · simp [hin, hid]

/-- C13: after `SetDefaults` the account ids are the same; a credential whose Region
was empty has Region `cn-hangzhou`; a credential whose Region was not empty is
unchanged; AccessKey and AccessKeySecret of every credential are unchanged. -/
theorem config.Config.SetDefaults_credentials (setDefaults : config.Metric → config.Metric)
    (c : config.Config) :
    (∀ id, id ∈ (c.SetDefaults setDefaults).Credentials.map Prod.fst
        ↔ id ∈ c.Credentials.map Prod.fst)
      ∧ (c.SetDefaults setDefaults).Credentials.map Prod.fst = c.Credentials.map Prod.fst
      ∧ (∀ id cr, c.Credentials.lookup id = some cr → cr.Region = "" →
          ∃ out, (c.SetDefaults setDefaults).Credentials.lookup id = some out
            ∧ out.Region = "cn-hangzhou")
      ∧ (∀ id cr, c.Credentials.lookup id = some cr → cr.Region ≠ "" →
          (c.SetDefaults setDefaults).Credentials.lookup id = some cr)
      ∧ (∀ id cr, c.Credentials.lookup id = some cr →
          ∃ out, (c.SetDefaults setDefaults).Credentials.lookup id = some out
            ∧ out.AccessKey = cr.AccessKey ∧ out.AccessKeySecret = cr.AccessKeySecret) := by
  obtain ⟨hkeys, hlook⟩ := config.credentialsLoop_spec (c.Credentials.map Prod.fst)
    c.Credentials (fun _ hk => hk)
  have hval : ∀ id cr, c.Credentials.lookup id = some cr →
      (c.SetDefaults setDefaults).Credentials.lookup id
        = some (if cr.Region = "" then { cr with Region := "cn-hangzhou" } else cr) := by
    intro id cr hcr
    have hmem : id ∈ c.Credentials.map Prod.fst :=
      (lookup_isSome_iff_mem_keys c.Credentials id).1 (by simp [hcr])
    show (config.credentialsLoop (c.Credentials.map Prod.fst) c.Credentials).lookup id = _
    rw [hlook id, if_pos hmem, hcr]
    rfl
  refine ⟨?_, hkeys, ?_, ?_, ?_⟩
  · intro id
    show id ∈ (config.credentialsLoop (c.Credentials.map Prod.fst) c.Credentials).map Prod.fst
      ↔ _
    rw [hkeys]
  · intro id cr hcr hreg
    exact ⟨_, hval id cr hcr, by simp [hreg]⟩
  · intro id cr hcr hreg
    rw [hval id cr hcr, if_neg hreg]
  · intro id cr hcr
    refine ⟨_, hval id cr hcr, ?_, ?_⟩
    · by_cases hreg : cr.Region = "" <;> simp [hreg]
    · by_cases hreg : cr.Region = "" <;> simp [hreg]

/-- C13 on `configTwoAccounts`: `acct-1`, without a region, gets `cn-hangzhou` and
keeps its keys; `acct-2` keeps `cn-beijing`. -/
theorem config.Config.SetDefaults_credentials_witness :
    (configTwoAccounts.SetDefaults id).Credentials
        = [("acct-1", ⟨"ak-1", "secret-1", "cn-hangzhou"⟩),
           ("acct-2", ⟨"ak-2", "secret-2", "cn-beijing"⟩)]
      ∧ (∃ out, (configTwoAccounts.SetDefaults id).Credentials.lookup "acct-1" = some out
          ∧ out.Region = "cn-hangzhou")
      ∧ (configTwoAccounts.SetDefaults id).Credentials.lookup "acct-2"
          = some ⟨"ak-2", "secret-2", "cn-beijing"⟩ :=
  ⟨by decide,
    (config.Config.SetDefaults_credentials id configTwoAccounts).2.2.1 "acct-1"
      ⟨"ak-1", "secret-1", ""⟩ rfl rfl,
    (config.Config.SetDefaults_credentials id configTwoAccounts).2.2.2.1 "acct-2"
      ⟨"ak-2", "secret-2", "cn-beijing"⟩ rfl (by decide)⟩

/-! ## Properties of the metadata listing -/

theorem filterNamespaces_of_all (it : NamespaceRange) (namespaces : List String)
    (h : namespaces = [] ∨ "all" ∈ namespaces) : filterNamespaces it namespaces = it.names := by
  rcases h with h | h
  · simp [filterNamespaces, h, allNamesOfNamespaces_eq]
  · have hne : namespaces.length ≠ 0 := by
      intro e
      rw [List.length_eq_zero] at e
      simp [e] at h
    simp [filterNamespaces, hne, filterLoop_of_all_mem _ _ _ h, allNamesOfNamespaces_eq]

theorem metaListLoop_error (c : MetricClient) (pre post : List String) (ns : String)
    (err : Error) (m0 : List (String × List Resource))
    (hpre : ∀ p ∈ pre, ∃ resp,
      c.cms.DescribeMetricMetaList { Namespace := p, PageSize := 100 } = .ok resp)
    (hns : c.cms.DescribeMetricMetaList { Namespace := ns, PageSize := 100 } = .error err) :
    metaListLoop c (pre ++ ns :: post) m0 = .error err := by
  induction pre generalizing m0 with
  | nil => simp [metaListLoop, hns]
  | cons p pre ih =>
    obtain ⟨resp, hresp⟩ := hpre p (List.mem_cons_self _ _)
    have hrest := ih (mapSet m0 p resp.Resource)
      (fun q hq => hpre q (List.mem_cons_of_mem _ hq))
    simpa [metaListLoop, hresp] using hrest

theorem metaListLoop_ok_calls (c : MetricClient) (l : List String)
    (m0 m : List (String × List Resource)) (h : metaListLoop c l m0 = .ok m) :
    ∀ ns ∈ l, ∃ resp,
      c.cms.DescribeMetricMetaList { Namespace := ns, PageSize := 100 } = .ok resp := by
  induction l generalizing m0 with
  | nil => simp
  | cons a l ih =>
    cases ha : c.cms.DescribeMetricMetaList { Namespace := a, PageSize := 100 } with
    | error e => simp [metaListLoop, ha] at h
    | ok resp =>
      simp only [metaListLoop, ha] at h
      intro ns hns
      rcases List.mem_cons.1 hns with h1 | h1
      · exact ⟨resp, by rw [h1, ha]⟩
      · exact ih _ h ns h1

theorem metaListLoop_ok (c : MetricClient) (res : String → List Resource) (l : List String)
    (m0 : List (String × List Resource))
    (hres : ∀ ns ∈ l,
      c.cms.DescribeMetricMetaList { Namespace := ns, PageSize := 100 }
        = .ok { Resource := res ns }) :
    ∃ m, metaListLoop c l m0 = .ok m
      ∧ (∀ k, m.lookup k = if k ∈ l then some (res k) else m0.lookup k)
      ∧ ((m0.map Prod.fst).Nodup → (m.map Prod.fst).Nodup) := by
  induction l generalizing m0 with
  | nil => exact ⟨m0, rfl, by simp, fun h => h⟩
  | cons a l ih =>
    have ha := hres a (List.mem_cons_self _ _)
    obtain ⟨m, hm, hlook, hnd⟩ := ih (mapSet m0 a (res a))
      (fun q hq => hres q (List.mem_cons_of_mem _ hq))
    refine ⟨m, by simpa [metaListLoop, ha] using hm, ?_, ?_⟩
    · intro k
      rw [hlook k, lookup_mapSet]
      by_cases hk : k ∈ l
      · simp [hk]
      · by_cases hka : k = a
        · simp [hk, hka]
        · simp [hk, hka]
    · intro h0
      exact hnd (nodup_keys_mapSet m0 a (res a) h0)

/-- C14: if the metadata call fails for a filtered namespace and succeeded for the
ones before it, `DescribeMetricMetaList` returns that error and no map; if a call
fails for any filtered namespace the result is an error; a map is returned only if
the call succeeds for every filtered namespace. -/
theorem MetricClient.DescribeMetricMetaList_aborts (c : MetricClient) (it : NamespaceRange)
    (namespaces : List String) :
    (∀ pre ns post err, filterNamespaces it namespaces = pre ++ ns :: post →
        (∀ p ∈ pre, ∃ resp,
          c.cms.DescribeMetricMetaList { Namespace := p, PageSize := 100 } = .ok resp) →
        c.cms.DescribeMetricMetaList { Namespace := ns, PageSize := 100 } = .error err →
        c.DescribeMetricMetaList it namespaces = .error err)
      ∧ (∀ ns ∈ filterNamespaces it namespaces, ∀ err,
        c.cms.DescribeMetricMetaList { Namespace := ns, PageSize := 100 } = .error err →
        ∃ e, c.DescribeMetricMetaList it namespaces = .error e)
      ∧ (∀ m, c.DescribeMetricMetaList it namespaces = .ok m →
        ∀ ns ∈ filterNamespaces it namespaces, ∃ resp,
          c.cms.DescribeMetricMetaList { Namespace := ns, PageSize := 100 } = .ok resp) := by
  refine ⟨?_, ?_, ?_⟩
  · intro pre ns post err hsplit hpre hns
    unfold MetricClient.DescribeMetricMetaList
    rw [hsplit]
    exact metaListLoop_error c pre post ns err [] hpre hns
  · intro ns hmem err hns
    cases hr : c.DescribeMetricMetaList it namespaces with
    | error e => exact ⟨e, rfl⟩
    | ok m =>
      obtain ⟨resp, hresp⟩ := metaListLoop_ok_calls c _ [] m hr ns hmem
      rw [hns] at hresp
      cases hresp
  · intro m hm
    exact metaListLoop_ok_calls c _ [] m hm

/-- C14 on the input `["waf", "acs_kafka", "acs_amqp"]` with a listing that fails
for `acs_kafka`: the call returns that error although `waf` was listed. -/
theorem MetricClient.DescribeMetricMetaList_aborts_witness :
    clientMetaKafkaDown.DescribeMetricMetaList sourceOrder ["waf", "acs_kafka", "acs_amqp"]
      = .error "Throttling.User" :=
  (MetricClient.DescribeMetricMetaList_aborts clientMetaKafkaDown sourceOrder
      ["waf", "acs_kafka", "acs_amqp"]).1 ["waf"] "acs_kafka" ["acs_amqp"] "Throttling.User"
    (by
      simp [filterNamespaces, filterLoop, allNamespaces, List.lookup])
    (by
      intro p hp
      rw [List.mem_singleton] at hp
      subst hp
      exact ⟨_, rfl⟩)
    rfl

/-- C15: when the metadata call succeeds for every filtered namespace, with `res ns`
the resources it returns for `ns`, `DescribeMetricMetaList` returns a map whose keys
are exactly the filtered namespaces, each mapped to `res` of it. When the call
succeeds for every registered namespace, the call without arguments returns a map
with an entry for each registered namespace, and the call with `["all"]` returns a
map with the same entries, whatever order either call visits the catalog in. -/
theorem MetricClient.DescribeMetricMetaList_keys (c : MetricClient) (it : NamespaceRange)
    (namespaces : List String) (res : String → List Resource) :
    ((∀ ns ∈ filterNamespaces it namespaces,
        c.cms.DescribeMetricMetaList { Namespace := ns, PageSize := 100 }
          = .ok { Resource := res ns }) →
      ∃ m, c.DescribeMetricMetaList it namespaces = .ok m
        ∧ (∀ k, k ∈ m.map Prod.fst ↔ k ∈ filterNamespaces it namespaces)
        ∧ (m.map Prod.fst).Nodup
        ∧ (∀ k ∈ filterNamespaces it namespaces, m.lookup k = some (res k)))
      ∧ ((∀ ns ∈ allNamespaces.map Prod.fst,
          c.cms.DescribeMetricMetaList { Namespace := ns, PageSize := 100 }
            = .ok { Resource := res ns }) →
        ∀ it2 : NamespaceRange,
          ∃ m1 m2, c.DescribeMetricMetaList it [] = .ok m1
            ∧ c.DescribeMetricMetaList it2 ["all"] = .ok m2
            ∧ (∀ k, k ∈ m1.map Prod.fst ↔ k ∈ allNamespaces.map Prod.fst)
            ∧ (∀ k, m1.lookup k = m2.lookup k)) := by
  have key : ∀ (jt : NamespaceRange) (nss : List String),
      (∀ ns ∈ filterNamespaces jt nss,
        c.cms.DescribeMetricMetaList { Namespace := ns, PageSize := 100 }
          = .ok { Resource := res ns }) →
      ∃ m, c.DescribeMetricMetaList jt nss = .ok m
        ∧ (∀ k, m.lookup k = if k ∈ filterNamespaces jt nss then some (res k) else none)
        ∧ (m.map Prod.fst).Nodup := by
    intro jt nss hres
    obtain ⟨m, hm, hlook, hnd⟩ := metaListLoop_ok c res (filterNamespaces jt nss) [] hres
    exact ⟨m, hm, fun k => by simpa using hlook k, hnd (by simp)⟩
  have keys_of : ∀ (m : List (String × List Resource)) (l : List String),
      (∀ k, m.lookup k = if k ∈ l then some (res k) else none) →
      ∀ k, k ∈ m.map Prod.fst ↔ k ∈ l := by
    intro m l hlook k
    rw [← lookup_isSome_iff_mem_keys, hlook k]
    by_cases hk : k ∈ l
    · simp [hk]
    · simp [hk]
  constructor
  · intro hres
    obtain ⟨m, hm, hlook, hnd⟩ := key it namespaces hres
    refine ⟨m, hm, keys_of m _ hlook, hnd, ?_⟩
    intro k hk
    rw [hlook k, if_pos hk]
  · intro hres it2
    have h1 : filterNamespaces it [] = it.names := filterNamespaces_of_all it [] (Or.inl rfl)
    have h2 : filterNamespaces it2 ["all"] = it2.names :=
      filterNamespaces_of_all it2 ["all"] (Or.inr (by simp))
    obtain ⟨m1, hm1, hlook1, _⟩ := key it [] (by
      intro ns hns
      rw [h1] at hns
      exact hres ns (it.perm.mem_iff.1 hns))
    obtain ⟨m2, hm2, hlook2, _⟩ := key it2 ["all"] (by
      intro ns hns
      rw [h2] at hns
      exact hres ns (it2.perm.mem_iff.1 hns))
    refine ⟨m1, m2, hm1, hm2, ?_, ?_⟩
    · intro k
      rw [keys_of m1 _ hlook1 k, h1]
      exact it.perm.mem_iff
    · intro k
      rw [hlook1 k, hlook2 k, h1, h2]
      have hiff : k ∈ it.names ↔ k ∈ it2.names :=
        it.perm.mem_iff.trans it2.perm.mem_iff.symm
      by_cases hk : k ∈ it.names
      · simp [hk, hiff.1 hk]
      · have hk2 : k ∉ it2.names := fun e => hk (hiff.2 e)
        simp [hk, hk2]

/-- C15 on the input `["waf", "nope", "waf"]` with a listing that always answers:
the map has the single key `waf`; and the calls with no argument and with `["all"]`,
visiting the catalog in opposite orders, return maps with the same entries. -/
theorem MetricClient.DescribeMetricMetaList_keys_witness :
    clientMeta.DescribeMetricMetaList sourceOrder ["waf", "nope", "waf"]
        = .ok [("waf", [⟨"waf"⟩])]
      ∧ (∃ m, clientMeta.DescribeMetricMetaList sourceOrder ["waf", "nope", "waf"] = .ok m
          ∧ (∀ k, k ∈ m.map Prod.fst
              ↔ k ∈ filterNamespaces sourceOrder ["waf", "nope", "waf"])
          ∧ (m.map Prod.fst).Nodup
          ∧ (∀ k ∈ filterNamespaces sourceOrder ["waf", "nope", "waf"],
              m.lookup k = some [⟨k⟩]))
      ∧ (∃ m1 m2, clientMeta.DescribeMetricMetaList sourceOrder [] = .ok m1
          ∧ clientMeta.DescribeMetricMetaList reverseOrder ["all"] = .ok m2
          ∧ (∀ k, k ∈ m1.map Prod.fst ↔ k ∈ allNamespaces.map Prod.fst)
          ∧ (∀ k, m1.lookup k = m2.lookup k)) :=
  ⟨rfl,
    (MetricClient.DescribeMetricMetaList_keys clientMeta sourceOrder ["waf", "nope", "waf"]
      (fun ns => [⟨ns⟩])).1 (fun _ _ => rfl),
    (MetricClient.DescribeMetricMetaList_keys clientMeta sourceOrder ["waf", "nope", "waf"]
      (fun ns => [⟨ns⟩])).2 (fun _ _ => rfl) reverseOrder⟩

/-! ## Counting the samples of a datapoint -/

theorem length_flatMap_replicate (claims : List config.Claim) (id : String)
    (g : config.Claim → Sample) :
    (claims.flatMap fun cl => List.replicate (cl.Instance.count id) (g cl)).length
      = (claims.map fun cl => cl.Instance.count id).sum := by
  induction claims with
  | nil => rfl
  | cons cl claims ih => simp [List.flatMap_cons, ih]

/-- In the claims branch, a datapoint whose `instanceId` is the string `id` and on
which `Get` returns sends as many samples as `id` occurs in the instance lists of
the claims, repetitions counted. -/
theorem claimsStep_sent_length (c : MetricClient) (lib : GoLib) (ns sub : String)
    (m : config.Metric) (dp : Datapoint) (id : String) (val : Float64)
    (hid : dp.lookup "instanceId" = some (.str id)) (hget : dp.Get m.Measure = .ok val) :
    (claimsStep c lib ns sub m dp).sent.length
      = (m.Spec.Claim.map fun cl => cl.Instance.count id).sum := by
  rw [claimsStep_of_string c lib ns sub m dp id val hid hget]
  exact length_flatMap_replicate m.Spec.Claim id _

/-- C16: for the datapoint `dpTextMeasure`, whose `instanceId` is the string `i-1`
and whose `Average` holds a string, and the claim `claimWeb`, which lists `i-1`
once, `Collect` panics in `Get` before sending: no sample, for one occurrence. -/
theorem Collect_claimed_text_measure_panics :
    dpTextMeasure.lookup "instanceId" = some (.str "i-1")
      ∧ ((cpuMetric [claimWeb]).Spec.Claim.map fun cl => cl.Instance.count "i-1").sum = 1
      ∧ (clientUp.Collect (libDecoding [dpTextMeasure]) "acs" "acs_ecs_dashboard"
          (cpuMetric [claimWeb])).run = .panic []
      ∧ (clientUp.Collect (libDecoding [dpTextMeasure]) "acs" "acs_ecs_dashboard"
          (cpuMetric [claimWeb])).run.sent.length = 0 := by
  refine ⟨rfl, ?_, ?_, ?_⟩
  · decide
  · decide
  · decide

/-! ## The label values of a sample -/

theorem plainStep_labelValues (c : MetricClient) (lib : GoLib) (ns sub : String)
    (m : config.Metric) (dp : Datapoint) :
    ∀ smp ∈ (plainStep c lib ns sub m dp).sent,
      smp.labelValues.length = m.Dimensions.length + 1 := by
  intro smp hsmp
  unfold plainStep at hsmp
  cases hget : dp.Get m.Measure with
  | error e => simp [hget, Run.sent] at hsmp
  | ok val =>
    simp only [hget, Run.sent, List.mem_singleton] at hsmp
    subst hsmp
    simp [Datapoint.Values_eq]

theorem instanceStep_labelValues (c : MetricClient) (lib : GoLib) (ns sub : String)
    (m : config.Metric) (dp : Datapoint) (cl : config.Claim) (inst : String) :
    ∀ smp ∈ (instanceStep c lib ns sub m dp cl inst).sent,
      smp.labelValues.length = m.Dimensions.length + 3 := by
  intro smp hsmp
  unfold instanceStep at hsmp
  cases hid : (dp.index "instanceId").assertString with
  | error e => simp [hid, Run.sent] at hsmp
  | ok id =>
    by_cases heq : id = inst
    · cases hget : dp.Get m.Measure with
      | error e => simp [hid, heq, hget, Run.sent] at hsmp
      | ok val =>
        simp only [hid, heq, hget, Run.sent, if_true, List.mem_singleton] at hsmp
        subst hsmp
        simp [Datapoint.Values_eq]
    · simp [hid, heq, Run.sent] at hsmp

/-- C17: `Values` returns one entry per label name, the entry at each position being
the `%s` rendering of the field of the datapoint under the name at that position;
where that field holds a string the entry is the string. Every sample `Collect`
sends carries `len(Dimensions) + 1` label values when no claim is configured and
`len(Dimensions) + 3` otherwise. -/
theorem Datapoint.Values_spec (c : MetricClient) (lib : GoLib) (ns sub : String)
    (m : config.Metric) (d : Datapoint) (labels : List String) :
    (d.Values lib labels).length = labels.length
      ∧ d.Values lib labels = labels.map (fun l => lib.sprintfS (d.index l))
      ∧ (∀ (i : Nat) (l s : String), labels[i]? = some l → d.lookup l = some (.str s) →
          (d.Values lib labels)[i]? = some s)
      ∧ (∀ smp ∈ (c.Collect lib ns sub m).run.sent,
          smp.labelValues.length
            = m.Dimensions.length + (if m.Spec.Claim.length = 0 then 1 else 3)) := by
  refine ⟨by simp [Datapoint.Values_eq], Datapoint.Values_eq lib d labels, ?_, ?_⟩
  · intro i l s hl hs
    rw [Datapoint.Values_eq, List.getElem?_map, hl]
    simp [Datapoint.index, hs, GoLib.sprintfS]
  · by_cases hname : m.Name = ""
    · simp [MetricClient.Collect, hname, Run.sent]
    · cases hret : c.retrive lib sub m.Name m.Period with
      | error e => simp [MetricClient.Collect, hname, hret, Run.sent]
      | ok dps =>
        by_cases hlen : m.Spec.Claim.length = 0
        · have hnil : m.Spec.Claim = [] := List.length_eq_zero.1 hlen
          rw [Collect_run_plain c lib ns sub m dps hname hnil hret, if_pos hlen]
          exact forRange_sent_forall _ dps _
            (fun dp _ => plainStep_labelValues c lib ns sub m dp)
        · have hne : m.Spec.Claim ≠ [] := fun e => hlen (by simp [e])
          rw [Collect_run_claims c lib ns sub m dps hname hne hret, if_neg hlen]
          apply forRange_sent_forall _ dps
          intro dp _
          unfold claimsStep
          apply forRange_sent_forall _ m.Spec.Claim
          intro cl _
          apply forRange_sent_forall _ cl.Instance
          intro inst _
          exact instanceStep_labelValues c lib ns sub m dp cl inst

/-- C17 on `dpOne` with the label names `["instanceId", "instanceId"]`: both entries
are the string `i-1`; and the one sample of the batch `[dpOne]` under the claim
`claimWeb` carries `1 + 3` label values. -/
theorem Datapoint.Values_spec_witness :
    dpOne.Values (libDecoding [dpOne]) ["instanceId", "instanceId"] = ["i-1", "i-1"]
      ∧ (dpOne.Values (libDecoding [dpOne]) ["instanceId", "instanceId"])[1]? = some "i-1"
      ∧ (∀ smp ∈ (clientUp.Collect (libDecoding [dpOne]) "acs" "acs_ecs_dashboard"
            (cpuMetric [claimWeb])).run.sent,
          smp.labelValues.length
            = (cpuMetric [claimWeb]).Dimensions.length
                + (if (cpuMetric [claimWeb]).Spec.Claim.length = 0 then 1 else 3)) :=
  ⟨by decide,
    (Datapoint.Values_spec clientUp (libDecoding [dpOne]) "acs" "acs_ecs_dashboard"
      (cpuMetric [claimWeb]) dpOne ["instanceId", "instanceId"]).2.2.1 1 "instanceId" "i-1"
      rfl rfl,
    (Datapoint.Values_spec clientUp (libDecoding [dpOne]) "acs" "acs_ecs_dashboard"
      (cpuMetric [claimWeb]) dpOne ["instanceId", "instanceId"]).2.2.2⟩

end AliyunExporter
